import Mathlib

/-!
# priceAlertHistoryLog.go: export to CSV, then purge

A shallow embedding of `src/priceAlertHistoryLog.go`.

* Go strings are Lean strings; a file is the list of bytes appended to it.
* A `time.Time` is an integer count of milliseconds since the Unix epoch, the resolution of
  the BSON datetime the collection stores and compares. The clock is read at that
  resolution: 24h is a whole number of milliseconds, so rounding the clock down before or
  after subtracting 24h gives the same BSON cutoff.
* A stored document is identified with the struct the driver decodes it to; the decoder
  yields UTC times.
* Everything the program does not own is an explicit input (`Env`): the clock, the replies
  of the MongoDB driver, the result of `os.Create`, the records other writers insert while
  the job runs, and the text `fmt` prints for a `float64`.
* Package-level variables and the outside world are threaded explicitly (`State`); every
  externally visible action is appended to a trace of `Event`s.
* A method or field reached through a nil pointer panics.
-/

namespace PriceAlert

/-! ## Data model (lines 18-44) -/

/-- Go `time.Time`, as milliseconds since the Unix epoch. -/
abbrev Time := Int

/-- Go `float64`, kept as its IEEE-754 bit pattern: the program only moves prices around. -/
structure Float64 where
  bits : Nat
deriving DecidableEq, Repr

/-- Go `error` values. -/
structure Err where
  msg : String
deriving DecidableEq, Repr

structure MongoOptionsConfig where
  RetryWrites : Option Bool
  WriteConcern : Option String
  ReplicaSet : Option String
deriving DecidableEq, Repr

structure MongoConfig where
  User : String
  Pass : String
  Host : String
  Port : Int
  Name : String
  Options : Option MongoOptionsConfig
deriving DecidableEq, Repr

structure PriceAlertHistoryModel where
  Date : Time
  Price : Float64
  ProductId : String
deriving DecidableEq, Repr

/-- The package variable `mongoConfig` as the source initialises it (lines 49-55). -/
def mongoConfig : MongoConfig :=
  { Host := "127.0.0.1", Port := 27017, User := "", Pass := "", Name := "", Options := none }

/-! ## Driver option values (`options.ClientOptions`) -/

/-- Driver type `options.Credential`, the three fields the program sets. -/
structure Credential where
  Username : String
  Password : String
  AuthSource : String
deriving DecidableEq, Repr

/-- Driver type `writeconcern.WriteConcern`; the program only ever builds `WMajority`. -/
inductive WriteConcern where
  | majority
deriving DecidableEq, Repr

/-- Driver type `options.ClientOptions`: the URI handed to `ApplyURI` and the fields the
setters used by the program fill in. An unset field is `none`. -/
structure ClientOptions where
  uri : Option String
  Auth : Option Credential
  Direct : Option Bool
  RetryWrites : Option Bool
  WriteConcern : Option WriteConcern
  ReplicaSet : Option String
deriving DecidableEq, Repr

/-- Driver call `options.Client()`: nothing set. -/
def ClientOptions.new : ClientOptions :=
  { uri := none, Auth := none, Direct := none, RetryWrites := none, WriteConcern := none,
    ReplicaSet := none }

/-- Lines 83-118. The package variable `mongoConfig` is the argument `cfg`. -/
def getConnectionOptions (cfg : MongoConfig) : ClientOptions :=
  let uri := "mongodb://" ++ cfg.Host ++ ":" ++ toString cfg.Port ++ "/"
  let opts := { ClientOptions.new with uri := some uri }
  let opts := { opts with
    Auth := some { Username := cfg.User, Password := cfg.Pass, AuthSource := cfg.Name } }
  let opts := { opts with Direct := some true }
  match cfg.Options with
  | none => opts
  | some o =>
    let opts :=
      match o.RetryWrites with
      | some b => { opts with RetryWrites := some b }
      | none => opts
    let opts :=
      match o.WriteConcern with
      | some wc => if wc = "majority" then { opts with WriteConcern := some .majority } else opts
      | none => opts
    let opts :=
      match o.ReplicaSet with
      | some rs => { opts with ReplicaSet := some rs }
      | none => opts
    opts

/-! ## Text formatting (`time.Time.Format`, `fmt.Sprintf`) -/

/-- Library helper `appendInt` of package `time`: a minus sign for a negative number, then
the decimal digits left-padded with zeros to `width`. -/
def appendInt (x : Int) (width : Nat) : String :=
  let ds := Nat.toDigits 10 x.natAbs
  let body := String.mk (List.replicate (width - ds.length) '0' ++ ds)
  if x < 0 then "-" ++ body else body

/-- Proleptic Gregorian date (year, month, day) of a day number counted from 1970-01-01. -/
def civilFromDays (days : Int) : Int × Int × Int :=
  let z := days + 719468
  let era := z / 146097
  let doe := z - era * 146097
  let yoe := (doe - doe / 1460 + doe / 36524 - doe / 146096) / 365
  let doy := doe - (365 * yoe + yoe / 4 - yoe / 100)
  let mp := (5 * doy + 2) / 153
  let d := doy - (153 * mp + 2) / 5 + 1
  let m := if mp < 10 then mp + 3 else mp - 9
  let y := yoe + era * 400 + (if m ≤ 2 then 1 else 0)
  (y, m, d)

/-- Layout `"2006-01-02"` applied to a count of seconds since the epoch. -/
def formatDay (secs : Int) : String :=
  let (y, m, d) := civilFromDays (secs / 86400)
  appendInt y 4 ++ "-" ++ appendInt m 2 ++ "-" ++ appendInt d 2

/-- Layout `"15:04:05"` applied to a count of seconds since the epoch. -/
def formatClock (secs : Int) : String :=
  let s := secs % 86400
  appendInt (s / 3600) 2 ++ ":" ++ appendInt (s % 3600 / 60) 2 ++ ":" ++ appendInt (s % 60) 2

/-- The call `t.Format("2006-01-02 15:04:05")` for a time whose zone is `offset` seconds east
of UTC. -/
def formatDateTime (t : Time) (offset : Int) : String :=
  let secs := t / 1000 + offset
  formatDay secs ++ " " ++ formatClock secs

/-- Go `[]byte(s)`: the UTF-8 bytes of a string. -/
def bytesOf (s : String) : List UInt8 :=
  s.data.flatMap String.utf8EncodeChar

/-! ## The archive text (lines 173-180) -/

/-- The `fmt.Sprintf("%v,%v,%v\n", ...)` of lines 175-179 for one record. Records come from
the driver's decoder, which yields UTC times. `sprintV` is `fmt.Sprintf("%v", _)` on a
`float64`. -/
def csvLine (sprintV : Float64 → String) (priceAlertHistory : PriceAlertHistoryModel) : String :=
  formatDateTime priceAlertHistory.Date 0 ++ "," ++ priceAlertHistory.ProductId ++ ","
    ++ sprintV priceAlertHistory.Price ++ "\n"

/-- Lines 173-180: the loop that grows `data`. -/
def csvData (sprintV : Float64 → String) (priceAlertHistories : List PriceAlertHistoryModel) :
    String :=
  priceAlertHistories.foldl (fun data priceAlertHistory => data ++ csvLine sprintV priceAlertHistory)
    "date,productId,price\n"

/-- The string literal of line 189. -/
def bom : List UInt8 := [0xEF, 0xBB, 0xBF]

/-! ## The store, the driver and the operating system -/

/-- Driver type `*mongo.Client`: one value per established connection. -/
structure Client where
  id : Nat
deriving DecidableEq, Repr

/-- Driver type `*mongo.Database`: a client together with a database name. -/
structure Database where
  client : Client
  name : String
deriving DecidableEq, Repr

/-- Driver type `*mongo.Cursor`. -/
structure Cursor where
  id : Nat
deriving DecidableEq, Repr

/-- Driver type `*mongo.DeleteResult`. -/
structure DeleteResult where
  DeletedCount : Int
deriving DecidableEq, Repr

/-- A query document of the shape `bson.D{{Key, bson.D{{Op, Value}}}}`. -/
structure FilterDoc where
  Key : String
  Op : String
  Value : Time
deriving DecidableEq, Repr

/-- MongoDB query semantics for the one shape the program builds: field `date` compared
with `$gt`. The struct field `Date` has no bson tag, so it is stored under `date`. -/
def FilterDoc.selects (f : FilterDoc) (r : PriceAlertHistoryModel) : Bool :=
  f.Key == "date" && f.Op == "$gt" && decide (f.Value < r.Date)

/-- The `log.Printf` / `log.Fatalf` lines of the program, by call site. -/
inductive LogLine where
  | start
  | target (weekAgo : Time)
  | connectFailed (e : Err)
  | mongoErr (e : Err)
  | total (n : Nat)
  | ended
  | deleted (n : Int)
  | complete
deriving DecidableEq, Repr

/-- Externally visible actions, in program order. `csvEnter` and `csvReturn` mark the call
of `writeLogCsv` and its return. -/
inductive Event where
  | log (l : LogLine)
  | connect (opts : ClientOptions)
  | find (db : String) (coll : String) (filter : FilterDoc)
  | cursorAll (c : Cursor)
  | cursorClose (c : Cursor)
  | csvEnter (batch : List PriceAlertHistoryModel)
  | create (title : String) (err : Option Err)
  | write (title : String) (bytes : List UInt8)
  | close (title : String)
  | csvReturn (batch : List PriceAlertHistoryModel)
  | deleteMany (db : String) (coll : String) (filter : FilterDoc)
deriving DecidableEq, Repr

/-- What the driver hands back from `DeleteMany`. On `ok` the server removed every matching
document. On `failed` the driver returns `(res, e)`, `res` being nil (`none`) for a network
or command error; `applied` tells whether the server removed the matching documents all the
same. -/
inductive DeleteReply where
  | ok
  | failed (res : Option DeleteResult) (e : Err) (applied : Bool)
deriving DecidableEq, Repr

/-- Everything the run receives from outside. -/
structure Env where
  -- Reading of `time.Now()` at line 124.
  now : Time
  -- Reply to the k-th `mongo.Connect` of the process, k counted from 0.
  connect : Nat → Except Err Client
  -- Cursor returned by `Find`; `none` is the nil pointer the driver returns with an error.
  findCursor : Option Cursor
  -- Error returned by `Find`.
  findErr : Option Err
  -- What `cursor.All` leaves in the slice.
  allRecords : List PriceAlertHistoryModel
  -- Error returned by `cursor.All`.
  allErr : Option Err
  -- Reading of `time.Now()` at line 182.
  csvNow : Time
  -- Offset of the local zone, seconds east of UTC, at `csvNow`.
  zoneOffset : Int
  -- Error returned by `os.Create`.
  createErr : Option Err
  -- Records other writers insert after the read and before the delete is served.
  arrivals : List PriceAlertHistoryModel
  -- Reply to `DeleteMany`.
  deleteReply : DeleteReply

/-- Package variables, the store, the file system, and the bookkeeping of the run. -/
structure State where
  -- Package variable of line 46.
  mongoClient : Option Client
  -- Package variable of line 49.
  mongoConfig : MongoConfig
  -- Number of `mongo.Connect` calls made so far.
  dials : Nat
  -- Contents of collection `priceAlertHistory`.
  store : List PriceAlertHistoryModel
  -- Files of the working directory.
  files : String → Option (List UInt8)
  -- Records this process has removed from the store.
  purged : List PriceAlertHistoryModel
  -- Actions so far.
  trace : List Event

/-- A process that has just started: `mongoClient` is nil, nothing has happened yet. -/
def State.start (cfg : MongoConfig) (store : List PriceAlertHistoryModel)
    (files : String → Option (List UInt8)) : State :=
  { mongoClient := none, mongoConfig := cfg, dials := 0, store := store, files := files,
    purged := [], trace := [] }

def State.emit (s : State) (e : Event) : State :=
  { s with trace := s.trace ++ [e] }

/-- The pattern `if mongoErr != nil { log.Printf("mongoErr:%v", mongoErr) }`. -/
def State.logIfErr (s : State) (mongoErr : Option Err) : State :=
  match mongoErr with
  | some err => s.emit (.log (.mongoErr err))
  | none => s

/-- Successful `os.Create`: the file exists and is empty. -/
def State.createFile (s : State) (title : String) : State :=
  { s with files := fun n => if n = title then some [] else s.files n }

/-- Bytes reach the end of an open file. -/
def State.appendFile (s : State) (title : String) (bytes : List UInt8) : State :=
  { s with
    files := fun n => if n = title then some ((s.files title).getD [] ++ bytes) else s.files n
    trace := s.trace ++ [.write title bytes] }

/-- How a call ends: `log.Fatalf` (exit status 1) or a panic. -/
inductive Abort where
  | fatal
  | panic
deriving DecidableEq, Repr

/-- Result of a call: it returns a value, or the process stops. -/
inductive Outcome (α : Type) where
  | done (a : α) (s : State)
  | crash (x : Abort) (s : State)

/-- A finished run of the process: `exit = none` is a normal return from `main`. -/
structure Run where
  exit : Option Abort
  final : State

/-! ## The connection handle (lines 57-81) -/

/-- Lines 68-81. -/
def connectMongo (env : Env) (s : State) : Outcome Unit :=
  let opts := getConnectionOptions s.mongoConfig
  let reply := env.connect s.dials
  let s := { s.emit (.connect opts) with dials := s.dials + 1 }
  match reply with
  | .error err => .crash .fatal (s.emit (.log (.connectFailed err)))
  | .ok client => .done () { s with mongoClient := some client }

/-- Lines 57-66. The mutex serialises the callers, so calls are taken one at a time. -/
def MongoDB (env : Env) (s : State) : Outcome Database :=
  let r := if s.mongoClient = none then connectMongo env s else .done () s
  match r with
  | .crash x s => .crash x s
  | .done _ s =>
    match s.mongoClient with
    | none => .crash .panic s
    | some client => .done { client := client, name := s.mongoConfig.Name } s

/-- A number of successive calls of `MongoDB()` in one process. -/
def callsMongoDB (env : Env) : Nat → State → Outcome (List Database)
  | 0, s => .done [] s
  | n + 1, s =>
    match MongoDB env s with
    | .crash x s => .crash x s
    | .done db s =>
      match callsMongoDB env n s with
      | .crash x s => .crash x s
      | .done dbs s => .done (db :: dbs) s

/-! ## The job (lines 120-193) -/

/-- Line 182: the name of the archive, from the local date at the time of the call. -/
def archiveTitle (env : Env) : String :=
  "priceAlertHistoryLog-" ++ formatDay (env.csvNow / 1000 + env.zoneOffset) ++ ".csv"

/-- Lines 172-193. The writes of lines 189-192 reach the file in order; their error results
are dropped by the source. -/
def writeLogCsv (sprintV : Float64 → String) (env : Env) (s : State)
    (priceAlertHistories : List PriceAlertHistoryModel) : Outcome Unit :=
  let s := s.emit (.csvEnter priceAlertHistories)
  let data := csvData sprintV priceAlertHistories
  let title := archiveTitle env
  match env.createErr with
  | some err => .crash .panic (s.emit (.create title (some err)))
  | none =>
    let s := (s.emit (.create title none)).createFile title
    let s := s.appendFile title bom
    let s := s.appendFile title (bytesOf data)
    let s := s.emit (.close title)
    .done () (s.emit (.csvReturn priceAlertHistories))

/-- Line 123: `time.ParseDuration("24h")`, in milliseconds. -/
def duration : Int := 86400000

/-- Line 132. -/
def filterBson (weekAgo : Time) : FilterDoc :=
  { Key := "date", Op := "$gt", Value := weekAgo }

/-- The server serving `DeleteMany(filter)`: the collection holds what it held at the read
plus the arrivals; a delete that is applied removes every record the filter selects. -/
def serveDelete (env : Env) (filter : FilterDoc) (s : State) :
    Option DeleteResult × Option Err × State :=
  let held := s.store ++ env.arrivals
  let gone := held.filter (fun r => filter.selects r)
  let kept := held.filter (fun r => !filter.selects r)
  match env.deleteReply with
  | .ok =>
    (some { DeletedCount := gone.length }, none,
      { s with store := kept, purged := s.purged ++ gone })
  | .failed res e true => (res, some e, { s with store := kept, purged := s.purged ++ gone })
  | .failed res e false => (res, some e, { s with store := held })

/-- Lines 120-170. A nil `cursor` makes `cursor.All` dereference a nil pointer, and so does
reading `res.DeletedCount` through a nil `res`. The deferred `cursor.Close` runs on every
way out. -/
def main (sprintV : Float64 → String) (env : Env) (s : State) : Run :=
  let s := s.emit (.log .start)
  let weekAgo := env.now - duration
  let s := s.emit (.log (.target weekAgo))
  match MongoDB env s with
  | .crash x s => { exit := some x, final := s }
  | .done mongoClient s =>
    let filterBson := filterBson weekAgo
    let s := s.emit (.find mongoClient.name "priceAlertHistory" filterBson)
    let s := s.logIfErr env.findErr
    match env.findCursor with
    | none => { exit := some .panic, final := s }
    | some cursor =>
      let s := s.emit (.cursorAll cursor)
      let priceAlertHistories := env.allRecords
      let s := s.logIfErr env.allErr
      let s := s.emit (.log (.total priceAlertHistories.length))
      if priceAlertHistories.length ≤ 0 then
        let s := s.emit (.log .ended)
        { exit := none, final := s.emit (.cursorClose cursor) }
      else
        match writeLogCsv sprintV env s priceAlertHistories with
        | .crash x s => { exit := some x, final := s.emit (.cursorClose cursor) }
        | .done _ s =>
          let s := s.emit (.deleteMany mongoClient.name "priceAlertHistory" filterBson)
          match serveDelete env filterBson s with
          | (res, mongoErr, s) =>
            let s := s.logIfErr mongoErr
            match res with
            | none => { exit := some .panic, final := s.emit (.cursorClose cursor) }
            | some res =>
              let s := s.emit (.log (.deleted res.DeletedCount))
              let s := s.emit (.log .complete)
              { exit := none, final := s.emit (.cursorClose cursor) }

/-! ## Vocabulary for traces -/

/-- Whether an action is a `DeleteMany`. -/
def Event.isDelete : Event → Bool
  | .deleteMany _ _ _ => true
  | _ => false

/-- The log line an error value produces, if any. -/
def errLog : Option Err → List Event
  | some err => [.log (.mongoErr err)]
  | none => []

/-- The actions of every run up to and including the connect attempt. -/
def opening (env : Env) (cfg : MongoConfig) : List Event :=
  [.log .start, .log (.target (env.now - 86400000)), .connect (getConnectionOptions cfg)]

/-- The actions of the read step once the connection is there. -/
def reading (env : Env) (cfg : MongoConfig) : List Event :=
  opening env cfg
    ++ [.find cfg.Name "priceAlertHistory" (filterBson (env.now - 86400000))]
    ++ errLog env.findErr

/-- The actions of a run that exports, up to the return of `writeLogCsv`. -/
def exported (sprintV : Float64 → String) (env : Env) (cfg : MongoConfig) (cur : Cursor) :
    List Event :=
  reading env cfg ++ [.cursorAll cur] ++ errLog env.allErr
    ++ [.log (.total env.allRecords.length), .csvEnter env.allRecords,
        .create (archiveTitle env) none, .write (archiveTitle env) bom,
        .write (archiveTitle env) (bytesOf (csvData sprintV env.allRecords)),
        .close (archiveTitle env), .csvReturn env.allRecords]

/-- The actions of a run that exports, up to and including the `DeleteMany`. -/
def exporting (sprintV : Float64 → String) (env : Env) (cfg : MongoConfig) (cur : Cursor) :
    List Event :=
  exported sprintV env cfg cur
    ++ [.deleteMany cfg.Name "priceAlertHistory" (filterBson (env.now - 86400000))]

/-- The log lines of lines 167-169, reached only through a non-nil `res`. -/
def closing : Option DeleteResult → List Event
  | some res => [.log (.deleted res.DeletedCount), .log .complete]
  | none => []

/-- How a run ends after `DeleteMany`: reading `res.DeletedCount` panics on a nil `res`. -/
def closingExit : Option DeleteResult → Option Abort
  | some _ => none
  | none => some .panic

/-- The files after a successful `writeLogCsv`. -/
def exportedFiles (sprintV : Float64 → String) (env : Env)
    (files : String → Option (List UInt8)) : String → Option (List UInt8) :=
  fun n =>
    if n = archiveTitle env then some (bom ++ bytesOf (csvData sprintV env.allRecords))
    else files n

/-! ## Reading an archive back, and concrete inputs -/

/-- A stand-in for the text `fmt` prints for a price, for running the model on concrete
inputs. -/
def sprintConst : Float64 → String := fun _ => "9.99"

/-- The record `{2024-01-01T00:00:00, "P1", 9.99}`. -/
def sampleRecord : PriceAlertHistoryModel :=
  { Date := 1704067200000, Price := { bits := 0x4023FAE147AE147B }, ProductId := "P1" }

/-- An environment in which every external call succeeds and the read returns `batch`. -/
def calmEnv (now : Time) (batch : List PriceAlertHistoryModel) : Env where
  now := now
  connect := fun _ => .ok { id := 1 }
  findCursor := some { id := 1 }
  findErr := none
  allRecords := batch
  allErr := none
  csvNow := now
  zoneOffset := 0
  createErr := none
  arrivals := []
  deleteReply := .ok

/-- A clock reading whose 24h cutoff is 2024-01-01T00:00:00. -/
def sampleNow : Time := 1704153600000

/-- A record dated one second before the cutoff of `sampleNow`. -/
def olderRecord : PriceAlertHistoryModel :=
  { Date := 1704067199000, Price := { bits := 0x4023FAE147AE147B }, ProductId := "P0" }

/-- A record dated one hour after the cutoff of `sampleNow`. -/
def newerRecord : PriceAlertHistoryModel :=
  { Date := 1704070800000, Price := { bits := 0x4023FAE147AE147B }, ProductId := "P2" }

/-- A record inserted by another writer while the job runs, dated at `sampleNow`. -/
def lateRecord : PriceAlertHistoryModel :=
  { Date := 1704153600000, Price := { bits := 0x4023FAE147AE147B }, ProductId := "P3" }

/-- The read returns `newerRecord`; `lateRecord` arrives before the delete is served. -/
def arrivalEnv : Env :=
  { calmEnv sampleNow [newerRecord] with arrivals := [lateRecord] }

/-- The read returns `newerRecord`; `os.Create` fails. -/
def deniedEnv : Env :=
  { calmEnv sampleNow [newerRecord] with createErr := some { msg := "permission denied" } }

/-- The read returns `newerRecord`; `DeleteMany` fails and hands back a nil result. -/
def deleteDownEnv : Env :=
  { calmEnv sampleNow [newerRecord] with
    deleteReply := .failed none { msg := "connection reset" } false }

/-- The call of `Find` fails: nil cursor and an error. -/
def findDownEnv : Env :=
  { calmEnv sampleNow [] with
    findCursor := none
    findErr := some { msg := "server selection timeout" } }

/-! ## Formatting, on concrete values -/

theorem formatDateTime_sample : formatDateTime 1704067200000 0 = "2024-01-01 00:00:00" := by
  decide

theorem formatDateTime_before_epoch : formatDateTime (-1) 0 = "1969-12-31 23:59:59" := by
  decide

theorem formatDateTime_leap_day : formatDateTime 951782400000 0 = "2000-02-29 00:00:00" := by
  decide

theorem formatDateTime_zone : formatDateTime 1709251199999 3600 = "2024-03-01 00:59:59" := by
  decide

theorem getConnectionOptions_default_uri :
    (getConnectionOptions mongoConfig).uri = some "mongodb://127.0.0.1:27017/" := by
  decide

theorem archiveTitle_sample :
    archiveTitle (calmEnv 1704067200000 []) = "priceAlertHistoryLog-2024-01-01.csv" := by
  decide

/-! ## Connection options -/

theorem writeLogCsv_ok (sprintV : Float64 → String) (env : Env) (s : State)
    (rs : List PriceAlertHistoryModel) (h : env.createErr = none) :
    writeLogCsv sprintV env s rs
      = .done ()
          { s with
            files := fun n =>
              if n = archiveTitle env then some (bom ++ bytesOf (csvData sprintV rs))
              else s.files n
            trace := s.trace ++
              [.csvEnter rs, .create (archiveTitle env) none, .write (archiveTitle env) bom,
               .write (archiveTitle env) (bytesOf (csvData sprintV rs)),
               .close (archiveTitle env), .csvReturn rs] } := by
  simp only [writeLogCsv, h, State.emit, State.createFile, State.appendFile, archiveTitle,
    List.append_assoc, List.singleton_append, Outcome.done.injEq, true_and]
  congr 1
  funext n
  by_cases hn : n = "priceAlertHistoryLog-" ++ formatDay (env.csvNow / 1000 + env.zoneOffset) ++ ".csv"
  · simp [hn]
  · simp [hn]

theorem writeLogCsv_fail (sprintV : Float64 → String) (env : Env) (s : State)
    (rs : List PriceAlertHistoryModel) (e : Err) (h : env.createErr = some e) :
    writeLogCsv sprintV env s rs
      = .crash .panic
          { s with
            trace := s.trace ++ [.csvEnter rs, .create (archiveTitle env) (some e)] } := by
  simp [writeLogCsv, h, State.emit, archiveTitle]

theorem MongoDB_connected (env : Env) (s : State) (c : Client) (h : s.mongoClient = some c) :
    MongoDB env s = .done { client := c, name := s.mongoConfig.Name } s := by
  simp [MongoDB, h]

theorem MongoDB_first_ok (env : Env) (s : State) (c : Client) (h0 : s.mongoClient = none)
    (hc : env.connect s.dials = .ok c) :
    MongoDB env s
      = .done { client := c, name := s.mongoConfig.Name }
          { s with
            mongoClient := some c
            dials := s.dials + 1
            trace := s.trace ++ [.connect (getConnectionOptions s.mongoConfig)] } := by
  simp [MongoDB, connectMongo, h0, hc, State.emit]

theorem MongoDB_first_fail (env : Env) (s : State) (e : Err) (h0 : s.mongoClient = none)
    (hc : env.connect s.dials = .error e) :
    MongoDB env s
      = .crash .fatal
          { s with
            dials := s.dials + 1
            trace := s.trace ++
              [.connect (getConnectionOptions s.mongoConfig), .log (.connectFailed e)] } := by
  simp [MongoDB, connectMongo, h0, hc, State.emit]

theorem callsMongoDB_connected (env : Env) (c : Client) :
    ∀ (n : Nat) (s : State), s.mongoClient = some c →
      callsMongoDB env n s
        = .done (List.replicate n { client := c, name := s.mongoConfig.Name }) s := by
  intro n
  induction n with
  | zero => intro s _; rfl
  | succ n ih =>
    intro s h
    simp [callsMongoDB, MongoDB_connected env s c h, ih s h, List.replicate_succ]

/-- C10. In a process whose handle is still unconnected and whose connect attempt succeeds
with client `c`, any number `n + 1` of successive calls of `MongoDB()` all return the database
named by the configuration on `c`; `mongo.Connect` has been called once, with the options of
`getConnectionOptions`; the handle is `c` afterwards; and once the handle is connected a call
of `MongoDB()` leaves the whole state as it was, so it never goes back to unconnected. -/
theorem MongoDB_connects_once (env : Env) (s : State) (c : Client) (n : Nat)
    (h0 : s.mongoClient = none) (hc : env.connect s.dials = .ok c) :
    (∃ s1, callsMongoDB env (n + 1) s
          = .done (List.replicate (n + 1) { client := c, name := s.mongoConfig.Name }) s1
        ∧ s1.mongoClient = some c
        ∧ s1.dials = s.dials + 1
        ∧ s1.trace = s.trace ++ [.connect (getConnectionOptions s.mongoConfig)]
        ∧ s1.mongoConfig = s.mongoConfig)
    ∧ (∀ (t : State) (d : Client), t.mongoClient = some d →
        MongoDB env t = .done { client := d, name := t.mongoConfig.Name } t) := by
  refine ⟨?_, fun t d ht => MongoDB_connected env t d ht⟩
  refine ⟨{ s with
            mongoClient := some c
            dials := s.dials + 1
            trace := s.trace ++ [.connect (getConnectionOptions s.mongoConfig)] },
    ?_, rfl, rfl, rfl, rfl⟩
  simp only [callsMongoDB, MongoDB_first_ok env s c h0 hc]
  rw [callsMongoDB_connected env c n _ rfl]
  simp [List.replicate_succ]

/-- C10 at three calls in a fresh process: one connect, three times the same database, even
though a second connect attempt would have produced another client. -/
theorem MongoDB_connects_once_witness :
    ∃ s1, callsMongoDB
            { calmEnv 0 [] with connect := fun k => .ok { id := k + 1 } } 3
            (State.start mongoConfig [] (fun _ => none))
          = .done (List.replicate 3 { client := { id := 1 }, name := "" }) s1
        ∧ s1.mongoClient = some { id := 1 }
        ∧ s1.dials = 1 := by
  obtain ⟨⟨s1, h1, h2, h3, _, _⟩, _⟩ :=
    MongoDB_connects_once { calmEnv 0 [] with connect := fun k => .ok { id := k + 1 } }
      (State.start mongoConfig [] (fun _ => none)) { id := 1 } 2 rfl rfl
  exact ⟨s1, h1, h2, h3⟩

/-! ## The job -/

theorem logIfErr_trace (s : State) (e : Option Err) :
    s.logIfErr e = { s with trace := s.trace ++ errLog e } := by
  cases e <;> simp [State.logIfErr, errLog, State.emit]

theorem main_connect_fail (sprintV : Float64 → String) (env : Env) (cfg : MongoConfig)
    (store : List PriceAlertHistoryModel) (files : String → Option (List UInt8)) (e : Err)
    (hconn : env.connect 0 = .error e) :
    main sprintV env (State.start cfg store files)
      = { exit := some .fatal
          final :=
            { State.start cfg store files with
              dials := 1
              trace := opening env cfg ++ [.log (.connectFailed e)] } } := by
  simp [main, MongoDB, connectMongo, State.emit, State.start, hconn, opening, duration]

theorem main_nil_cursor (sprintV : Float64 → String) (env : Env) (cfg : MongoConfig)
    (store : List PriceAlertHistoryModel) (files : String → Option (List UInt8)) (c : Client)
    (hconn : env.connect 0 = .ok c) (hcur : env.findCursor = none) :
    main sprintV env (State.start cfg store files)
      = { exit := some .panic
          final :=
            { State.start cfg store files with
              mongoClient := some c
              dials := 1
              trace := reading env cfg } } := by
  simp [main, MongoDB, connectMongo, State.emit, State.start, hconn, hcur, opening, reading,
    duration, logIfErr_trace]

theorem main_empty (sprintV : Float64 → String) (env : Env) (cfg : MongoConfig)
    (store : List PriceAlertHistoryModel) (files : String → Option (List UInt8)) (c : Client)
    (cur : Cursor) (hconn : env.connect 0 = .ok c) (hcur : env.findCursor = some cur)
    (hrec : env.allRecords = []) :
    main sprintV env (State.start cfg store files)
      = { exit := none
          final :=
            { State.start cfg store files with
              mongoClient := some c
              dials := 1
              trace := reading env cfg ++ [.cursorAll cur] ++ errLog env.allErr
                ++ [.log (.total 0), .log .ended, .cursorClose cur] } } := by
  simp [main, MongoDB, connectMongo, State.emit, State.start, hconn, hcur, hrec, opening,
    reading, duration, logIfErr_trace]

theorem main_create_fail (sprintV : Float64 → String) (env : Env) (cfg : MongoConfig)
    (store : List PriceAlertHistoryModel) (files : String → Option (List UInt8)) (c : Client)
    (cur : Cursor) (ce : Err) (hconn : env.connect 0 = .ok c)
    (hcur : env.findCursor = some cur) (hrec : env.allRecords ≠ [])
    (hcr : env.createErr = some ce) :
    main sprintV env (State.start cfg store files)
      = { exit := some .panic
          final :=
            { State.start cfg store files with
              mongoClient := some c
              dials := 1
              trace := reading env cfg ++ [.cursorAll cur] ++ errLog env.allErr
                ++ [.log (.total env.allRecords.length), .csvEnter env.allRecords,
                    .create (archiveTitle env) (some ce), .cursorClose cur] } } := by
  have hlen : ¬ env.allRecords.length = 0 := by
    simpa [List.length_eq_zero] using hrec
  simp [main, MongoDB, connectMongo, State.emit, State.start, hconn, hcur, hlen, opening,
    reading, duration, logIfErr_trace, writeLogCsv_fail sprintV env _ _ ce hcr]

theorem mem_errLog (x : Event) (e : Option Err) :
    x ∈ errLog e ↔ ∃ err, x = .log (.mongoErr err) ∧ e = some err := by
  cases e <;> simp [errLog]

theorem forall_mem_errLog (p : Event → Prop) (e : Option Err) :
    (∀ x ∈ errLog e, p x) ↔ ∀ err, e = some err → p (.log (.mongoErr err)) := by
  cases e <;> simp [errLog]

theorem errLog_filter_isDelete (e : Option Err) : (errLog e).filter Event.isDelete = [] := by
  cases e <;> simp [errLog, Event.isDelete]

theorem main_delete_ok (sprintV : Float64 → String) (env : Env) (cfg : MongoConfig)
    (store : List PriceAlertHistoryModel) (files : String → Option (List UInt8)) (c : Client)
    (cur : Cursor) (hconn : env.connect 0 = .ok c) (hcur : env.findCursor = some cur)
    (hrec : env.allRecords ≠ []) (hcr : env.createErr = none) (hdel : env.deleteReply = .ok) :
    main sprintV env (State.start cfg store files)
      = { exit := none
          final :=
            { mongoClient := some c
              mongoConfig := cfg
              dials := 1
              store := (store ++ env.arrivals).filter
                (fun r => !(filterBson (env.now - 86400000)).selects r)
              files := exportedFiles sprintV env files
              purged := (store ++ env.arrivals).filter
                (fun r => (filterBson (env.now - 86400000)).selects r)
              trace := exporting sprintV env cfg cur
                ++ [.log (.deleted (((store ++ env.arrivals).filter
                      (fun r => (filterBson (env.now - 86400000)).selects r)).length : Nat)),
                    .log .complete, .cursorClose cur] } } := by
  have hlen : ¬ env.allRecords.length = 0 := by
    simpa [List.length_eq_zero] using hrec
  simp [main, MongoDB, connectMongo, State.emit, State.start, hconn, hcur, hlen, opening,
    reading, exporting, exported, duration, logIfErr_trace,
    writeLogCsv_ok sprintV env _ _ hcr, serveDelete, hdel, errLog]
  rfl

theorem main_delete_failed (sprintV : Float64 → String) (env : Env) (cfg : MongoConfig)
    (store : List PriceAlertHistoryModel) (files : String → Option (List UInt8)) (c : Client)
    (cur : Cursor) (res : Option DeleteResult) (de : Err) (applied : Bool)
    (hconn : env.connect 0 = .ok c) (hcur : env.findCursor = some cur)
    (hrec : env.allRecords ≠ []) (hcr : env.createErr = none)
    (hdel : env.deleteReply = .failed res de applied) :
    main sprintV env (State.start cfg store files)
      = { exit := closingExit res
          final :=
            { mongoClient := some c
              mongoConfig := cfg
              dials := 1
              store :=
                if applied then
                  (store ++ env.arrivals).filter
                    (fun r => !(filterBson (env.now - 86400000)).selects r)
                else store ++ env.arrivals
              files := exportedFiles sprintV env files
              purged :=
                if applied then
                  (store ++ env.arrivals).filter
                    (fun r => (filterBson (env.now - 86400000)).selects r)
                else []
              trace := exporting sprintV env cfg cur ++ [.log (.mongoErr de)] ++ closing res
                ++ [.cursorClose cur] } } := by
  have hlen : ¬ env.allRecords.length = 0 := by
    simpa [List.length_eq_zero] using hrec
  cases res <;> cases applied <;>
    simp [main, MongoDB, connectMongo, State.emit, State.start, hconn, hcur, hlen, opening,
      reading, exporting, exported, duration, logIfErr_trace,
      writeLogCsv_ok sprintV env _ _ hcr, serveDelete, hdel, errLog, closing, closingExit] <;>
    rfl

/-- C3. In a run in which the connection is obtained, `Find` hands back a cursor and
`cursor.All` leaves zero records in the slice, `main` returns normally through the
empty-batch exit; `writeLogCsv` is not called, no file is created or written, no `DeleteMany`
is issued, and the files and the store are what they were. -/
theorem main_empty_batch (sprintV : Float64 → String) (env : Env) (cfg : MongoConfig)
    (store : List PriceAlertHistoryModel) (files : String → Option (List UInt8))
    (c : Client) (cur : Cursor)
    (hconn : env.connect 0 = .ok c) (hcur : env.findCursor = some cur)
    (hzero : env.allRecords = []) :
    (main sprintV env (State.start cfg store files)).exit = none
    ∧ (∀ e ∈ (main sprintV env (State.start cfg store files)).final.trace,
        (∀ b, e ≠ .csvEnter b) ∧ (∀ t r, e ≠ .create t r) ∧ (∀ t b, e ≠ .write t b)
        ∧ e.isDelete = false)
    ∧ (main sprintV env (State.start cfg store files)).final.files = files
    ∧ (main sprintV env (State.start cfg store files)).final.store = store
    ∧ (main sprintV env (State.start cfg store files)).final.purged = []
    ∧ Event.log .ended ∈ (main sprintV env (State.start cfg store files)).final.trace := by
  rw [main_empty sprintV env cfg store files c cur hconn hcur hzero]
  rcases hfe : env.findErr with _ | fe <;> rcases hae : env.allErr with _ | ae <;>
    simp [State.start, reading, opening, errLog, hfe, Event.isDelete]

/-- C3 at a store holding one record older than the cutoff, which the read does not return:
the run ends normally and the record is still there. -/
theorem main_empty_batch_witness :
    (main sprintConst (calmEnv sampleNow [])
        (State.start mongoConfig [olderRecord] (fun _ => none))).exit = none
    ∧ (main sprintConst (calmEnv sampleNow [])
        (State.start mongoConfig [olderRecord] (fun _ => none))).final.store = [olderRecord]
    ∧ (main sprintConst (calmEnv sampleNow [])
        (State.start mongoConfig [olderRecord] (fun _ => none))).final.purged = [] :=
  have h := main_empty_batch sprintConst (calmEnv sampleNow []) mongoConfig [olderRecord]
    (fun _ => none) { id := 1 } { id := 1 } rfl rfl rfl
  ⟨h.1, h.2.2.2.1, h.2.2.2.2.1⟩

/-- C2. In every run of `main` at most one `DeleteMany` is issued; when one is issued, the
trace splits around it into the actions before and the actions after, neither holding another
`DeleteMany`, the actions before include the return of `writeLogCsv` from the full batch left
by `cursor.All`, and the archive holds the mark and the text of that batch; and in a run in
which `os.Create` fails, the run ends by a panic after `writeLogCsv` was entered and before it
returned, no `DeleteMany` is issued, and the store is what it was. -/
theorem main_delete_after_export (sprintV : Float64 → String) (env : Env) (cfg : MongoConfig)
    (store : List PriceAlertHistoryModel) (files : String → Option (List UInt8)) :
    ((main sprintV env (State.start cfg store files)).final.trace.filter Event.isDelete).length
        ≤ 1
    ∧ ((∃ e ∈ (main sprintV env (State.start cfg store files)).final.trace, e.isDelete = true) →
        ∃ before after,
          (main sprintV env (State.start cfg store files)).final.trace
              = before
                ++ Event.deleteMany cfg.Name "priceAlertHistory" (filterBson (env.now - 86400000))
                  :: after
          ∧ Event.csvReturn env.allRecords ∈ before
          ∧ (∀ e ∈ before, e.isDelete = false)
          ∧ (∀ e ∈ after, e.isDelete = false)
          ∧ (main sprintV env (State.start cfg store files)).final.files (archiveTitle env)
              = some (bom ++ bytesOf (csvData sprintV env.allRecords)))
    ∧ (∀ t err,
        Event.create t (some err) ∈ (main sprintV env (State.start cfg store files)).final.trace →
        (main sprintV env (State.start cfg store files)).exit = some .panic
        ∧ Event.csvEnter env.allRecords
            ∈ (main sprintV env (State.start cfg store files)).final.trace
        ∧ (∀ e ∈ (main sprintV env (State.start cfg store files)).final.trace,
            e.isDelete = false ∧ ∀ b, e ≠ .csvReturn b)
        ∧ (main sprintV env (State.start cfg store files)).final.store = store
        ∧ (main sprintV env (State.start cfg store files)).final.purged = []) := by
  rcases hconn : env.connect 0 with e | c
  · rw [main_connect_fail sprintV env cfg store files e hconn]
    simp [State.start, opening, Event.isDelete]
  rcases hcur : env.findCursor with _ | cur
  · rw [main_nil_cursor sprintV env cfg store files c hconn hcur]
    have hno : ∀ e ∈ reading env cfg,
        e.isDelete = false ∧ ∀ t err, e ≠ .create t (some err) := by
      simp only [reading, opening, List.cons_append, List.nil_append, List.append_assoc,
        List.forall_mem_cons, List.forall_mem_append, forall_mem_errLog]
      simp [Event.isDelete]
    refine ⟨?_, ?_, ?_⟩
    · rw [List.filter_eq_nil_iff.2 (fun a ha => by simp [(hno a ha).1])]
      simp
    · rintro ⟨e, he, hd⟩
      rw [(hno e he).1] at hd
      cases hd
    · intro t err hmem
      exact absurd rfl ((hno _ hmem).2 t err)
  by_cases hrec : env.allRecords = []
  · rw [main_empty sprintV env cfg store files c cur hconn hcur hrec]
    have hno : ∀ e ∈ reading env cfg ++ [.cursorAll cur] ++ errLog env.allErr
          ++ [.log (.total 0), .log .ended, .cursorClose cur],
        e.isDelete = false ∧ ∀ t err, e ≠ .create t (some err) := by
      simp only [reading, opening, List.cons_append, List.nil_append, List.append_assoc,
        List.forall_mem_cons, List.forall_mem_append, forall_mem_errLog]
      simp [Event.isDelete]
    refine ⟨?_, ?_, ?_⟩
    · rw [List.filter_eq_nil_iff.2 (fun a ha => by simp [(hno a ha).1])]
      simp
    · rintro ⟨e, he, hd⟩
      rw [(hno e he).1] at hd
      cases hd
    · intro t err hmem
      exact absurd rfl ((hno _ hmem).2 t err)
  rcases hcr : env.createErr with _ | ce
  swap
  · rw [main_create_fail sprintV env cfg store files c cur ce hconn hcur hrec hcr]
    have hno : ∀ e ∈ reading env cfg ++ [.cursorAll cur] ++ errLog env.allErr
          ++ [.log (.total env.allRecords.length), .csvEnter env.allRecords,
              .create (archiveTitle env) (some ce), .cursorClose cur],
        e.isDelete = false ∧ ∀ b, e ≠ .csvReturn b := by
      simp only [reading, opening, List.cons_append, List.nil_append, List.append_assoc,
        List.forall_mem_cons, List.forall_mem_append, forall_mem_errLog]
      simp [Event.isDelete]
    refine ⟨?_, ?_, ?_⟩
    · rw [List.filter_eq_nil_iff.2 (fun a ha => by simp [(hno a ha).1])]
      simp
    · rintro ⟨e, he, hd⟩
      rw [(hno e he).1] at hd
      cases hd
    · intro t err _
      exact ⟨rfl, by simp, hno, rfl, rfl⟩
  have hbefore : ∀ e ∈ exported sprintV env cfg cur,
      e.isDelete = false ∧ ∀ t err, e ≠ .create t (some err) := by
    simp only [exported, reading, opening, List.cons_append, List.nil_append,
      List.append_assoc, List.forall_mem_cons, List.forall_mem_append, forall_mem_errLog]
    simp [Event.isDelete]
  have hret : Event.csvReturn env.allRecords ∈ exported sprintV env cfg cur := by
    simp [exported]
  have hfile : exportedFiles sprintV env files (archiveTitle env)
      = some (bom ++ bytesOf (csvData sprintV env.allRecords)) := by
    simp [exportedFiles]
  have hnil : (exported sprintV env cfg cur).filter Event.isDelete = [] :=
    List.filter_eq_nil_iff.2 (fun a ha => by simp [(hbefore a ha).1])
  rcases hdel : env.deleteReply with _ | ⟨res, de, applied⟩
  · rw [main_delete_ok sprintV env cfg store files c cur hconn hcur hrec hcr hdel]
    refine ⟨?_, ?_, ?_⟩
    · simp [exporting, hnil, Event.isDelete]
    · intro _
      refine ⟨exported sprintV env cfg cur,
        [.log (.deleted (((store ++ env.arrivals).filter
            (fun r => (filterBson (env.now - 86400000)).selects r)).length : Nat)),
         .log .complete, .cursorClose cur],
        ?_, hret, fun e he => (hbefore e he).1, ?_, hfile⟩
      · simp only [exporting, List.append_assoc, List.singleton_append]
      · simp [Event.isDelete]
    · intro t err hmem
      simp only [exporting, List.mem_append, List.mem_cons, List.mem_singleton,
        List.not_mem_nil, or_false] at hmem
      rcases hmem with (hmem | hmem) | hmem
      · exact absurd rfl ((hbefore _ hmem).2 t err)
      · cases hmem
      · rcases hmem with hmem | hmem | hmem <;> cases hmem
  · rw [main_delete_failed sprintV env cfg store files c cur res de applied hconn hcur hrec hcr
      hdel]
    refine ⟨?_, ?_, ?_⟩
    · cases res <;> simp [exporting, hnil, Event.isDelete, closing]
    · intro _
      refine ⟨exported sprintV env cfg cur,
        [.log (.mongoErr de)] ++ closing res ++ [.cursorClose cur],
        ?_, hret, fun e he => (hbefore e he).1, ?_, hfile⟩
      · simp only [exporting, List.append_assoc, List.singleton_append, List.cons_append,
          List.nil_append]
      · cases res <;> simp [Event.isDelete, closing]
    · intro t err hmem
      simp only [exporting, List.mem_append, List.mem_cons, List.mem_singleton,
        List.not_mem_nil, or_false] at hmem
      rcases hmem with (((hmem | hmem) | hmem) | hmem) | hmem
      · exact absurd rfl ((hbefore _ hmem).2 t err)
      · cases hmem
      · cases hmem
      · cases res
        · simp [closing] at hmem
        · simp [closing] at hmem
      · cases hmem

/-- C2 at a run in which `os.Create` fails: the run panics and the record is still stored. -/
theorem main_delete_after_export_witness :
    (main sprintConst deniedEnv (State.start mongoConfig [newerRecord] (fun _ => none))).exit
        = some .panic
    ∧ (main sprintConst deniedEnv
        (State.start mongoConfig [newerRecord] (fun _ => none))).final.store = [newerRecord] :=
  have h := (main_delete_after_export sprintConst deniedEnv mongoConfig [newerRecord]
    (fun _ => none)).2.2 (archiveTitle deniedEnv) { msg := "permission denied" } (by decide)
  ⟨h.1, h.2.2.2.1⟩

/-- Every `Find` and every `DeleteMany` of a run carries the database of the configuration,
the collection `priceAlertHistory` and the filter built from `now - 24h`. -/
theorem main_queries (sprintV : Float64 → String) (env : Env) (cfg : MongoConfig)
    (store : List PriceAlertHistoryModel) (files : String → Option (List UInt8)) :
    ∀ e ∈ (main sprintV env (State.start cfg store files)).final.trace,
      ∀ db coll f, e = .find db coll f ∨ e = .deleteMany db coll f →
        db = cfg.Name ∧ coll = "priceAlertHistory" ∧ f = filterBson (env.now - 86400000) := by
  rcases hconn : env.connect 0 with e | c
  · rw [main_connect_fail sprintV env cfg store files e hconn]
    simp [State.start, opening]
  rcases hcur : env.findCursor with _ | cur
  · rw [main_nil_cursor sprintV env cfg store files c hconn hcur]
    simp only [reading, opening, List.cons_append, List.nil_append, List.append_assoc,
      List.forall_mem_cons, List.forall_mem_append, forall_mem_errLog]
    simp
  by_cases hrec : env.allRecords = []
  · rw [main_empty sprintV env cfg store files c cur hconn hcur hrec]
    simp only [reading, opening, List.cons_append, List.nil_append, List.append_assoc,
      List.forall_mem_cons, List.forall_mem_append, forall_mem_errLog]
    simp
  rcases hcr : env.createErr with _ | ce
  swap
  · rw [main_create_fail sprintV env cfg store files c cur ce hconn hcur hrec hcr]
    simp only [reading, opening, List.cons_append, List.nil_append, List.append_assoc,
      List.forall_mem_cons, List.forall_mem_append, forall_mem_errLog]
    simp
  rcases hdel : env.deleteReply with _ | ⟨res, de, applied⟩
  · rw [main_delete_ok sprintV env cfg store files c cur hconn hcur hrec hcr hdel]
    simp only [exporting, exported, reading, opening, List.cons_append, List.nil_append,
      List.append_assoc, List.forall_mem_cons, List.forall_mem_append, forall_mem_errLog]
    simp
  · rw [main_delete_failed sprintV env cfg store files c cur res de applied hconn hcur hrec hcr
      hdel]
    cases res <;>
    · simp only [exporting, exported, reading, opening, closing, List.cons_append,
        List.nil_append, List.append_assoc, List.forall_mem_cons, List.forall_mem_append,
        forall_mem_errLog]
      simp

theorem filterBson_selects (weekAgo : Time) (r : PriceAlertHistoryModel) :
    (filterBson weekAgo).selects r = true ↔ weekAgo < r.Date := by
  simp [filterBson, FilterDoc.selects]

/-- C5. Every `Find` and every `DeleteMany` a run of `main` issues goes to collection
`priceAlertHistory` of the configured database with the one filter built from
`cutoff = now - 24h`; that filter selects a record exactly when its date is strictly later
than the cutoff, so a record dated at the cutoff is not selected and a record dated one time
unit later is. -/
theorem main_same_filter (sprintV : Float64 → String) (env : Env) (cfg : MongoConfig)
    (store : List PriceAlertHistoryModel) (files : String → Option (List UInt8)) :
    (∀ e ∈ (main sprintV env (State.start cfg store files)).final.trace,
      ∀ db coll f, e = .find db coll f ∨ e = .deleteMany db coll f →
        db = cfg.Name ∧ coll = "priceAlertHistory" ∧ f = filterBson (env.now - 86400000))
    ∧ filterBson (env.now - 86400000)
        = { Key := "date", Op := "$gt", Value := env.now - 86400000 }
    ∧ (∀ r, (filterBson (env.now - 86400000)).selects r = true ↔ env.now - 86400000 < r.Date)
    ∧ (∀ r, r.Date = env.now - 86400000 → (filterBson (env.now - 86400000)).selects r = false)
    ∧ (∀ r, r.Date = env.now - 86400000 + 1 →
        (filterBson (env.now - 86400000)).selects r = true) := by
  refine ⟨main_queries sprintV env cfg store files, rfl, filterBson_selects _, ?_, ?_⟩
  · intro r hr
    simp [filterBson, FilterDoc.selects, hr]
  · intro r hr
    simp [filterBson, FilterDoc.selects, hr]

/-- C5 at a full run: the `DeleteMany` carries the filter `date > 2024-01-01T00:00:00`, which
leaves out a record dated exactly then. -/
theorem main_same_filter_witness :
    filterBson 1704067200000 = { Key := "date", Op := "$gt", Value := 1704067200000 }
    ∧ (filterBson 1704067200000).selects sampleRecord = false :=
  have h := main_same_filter sprintConst (calmEnv sampleNow [newerRecord]) mongoConfig
    [newerRecord] (fun _ => none)
  ⟨(h.1 (.deleteMany "" "priceAlertHistory" (filterBson 1704067200000)) (by decide)
      "" "priceAlertHistory" (filterBson 1704067200000) (Or.inr rfl)).2.2.symm ▸ h.2.1,
   h.2.2.2.1 sampleRecord rfl⟩

/-- C1, refuted as stated. The read returns `newerRecord`, which is exported; `lateRecord`
is inserted by another writer before the delete is served; the run ends normally having
removed `lateRecord` too, a record that was not in the store at the read and is not in the
exported batch. -/
theorem main_purges_arrival :
    (main sprintConst arrivalEnv (State.start mongoConfig [newerRecord] (fun _ => none))).exit
        = none
    ∧ Event.csvReturn [newerRecord]
        ∈ (main sprintConst arrivalEnv
            (State.start mongoConfig [newerRecord] (fun _ => none))).final.trace
    ∧ (main sprintConst arrivalEnv
        (State.start mongoConfig [newerRecord] (fun _ => none))).final.purged
        = [newerRecord, lateRecord]
    ∧ lateRecord ∉ [newerRecord]
    ∧ ¬ (∀ r, r ∈ (main sprintConst arrivalEnv
            (State.start mongoConfig [newerRecord] (fun _ => none))).final.purged
          ↔ r ∈ arrivalEnv.allRecords) := by
  have hrun := main_delete_ok sprintConst arrivalEnv mongoConfig [newerRecord] (fun _ => none)
    { id := 1 } { id := 1 } rfl rfl (by decide) rfl rfl
  have hp : (main sprintConst arrivalEnv
      (State.start mongoConfig [newerRecord] (fun _ => none))).final.purged
      = [newerRecord, lateRecord] := by
    rw [hrun]
    decide
  refine ⟨by rw [hrun], ?_, hp, by decide, ?_⟩
  · decide
  · intro h
    have hl := (h lateRecord).1 (by rw [hp]; decide)
    revert hl
    decide

/-- C1, amended. Whatever the store holds and whatever the read step returns, every record a
run removes was held by the store when the delete was served (present at the read, or
inserted since) and is dated strictly later than `cutoff = now - 24h`; in a run that reaches
the delete and whose delete succeeds, the records removed are all the records held at that
moment with `date > cutoff`, and the store keeps the others; the removed records are the
exported batch when the read returned exactly the stored records with `date > cutoff` and
none was inserted before the delete. -/
theorem main_purges_filter_matches (sprintV : Float64 → String) (env : Env)
    (cfg : MongoConfig) (store : List PriceAlertHistoryModel)
    (files : String → Option (List UInt8)) :
    (∀ r ∈ (main sprintV env (State.start cfg store files)).final.purged,
        r ∈ store ++ env.arrivals ∧ env.now - 86400000 < r.Date)
    ∧ (∀ c cur, env.connect 0 = .ok c → env.findCursor = some cur → env.allRecords ≠ [] →
        env.createErr = none → env.deleteReply = .ok →
        (main sprintV env (State.start cfg store files)).final.purged
            = (store ++ env.arrivals).filter (fun r => decide (env.now - 86400000 < r.Date))
        ∧ (main sprintV env (State.start cfg store files)).final.store
            = (store ++ env.arrivals).filter (fun r => !decide (env.now - 86400000 < r.Date))
        ∧ (env.allRecords = store.filter (fun r => decide (env.now - 86400000 < r.Date)) →
            env.arrivals = [] →
            (main sprintV env (State.start cfg store files)).final.purged = env.allRecords)) := by
  have hsel : (fun r => (filterBson (env.now - 86400000)).selects r)
      = (fun r : PriceAlertHistoryModel => decide (env.now - 86400000 < r.Date)) := by
    funext r
    simp [filterBson, FilterDoc.selects]
  have hmem : ∀ r ∈ (store ++ env.arrivals).filter
        (fun r => (filterBson (env.now - 86400000)).selects r),
      r ∈ store ++ env.arrivals ∧ env.now - 86400000 < r.Date := by
    intro r hr
    rw [hsel, List.mem_filter] at hr
    exact ⟨hr.1, by simpa using hr.2⟩
  constructor
  · rcases hconn : env.connect 0 with e | c
    · rw [main_connect_fail sprintV env cfg store files e hconn]
      simp [State.start]
    rcases hcur : env.findCursor with _ | cur
    · rw [main_nil_cursor sprintV env cfg store files c hconn hcur]
      simp [State.start]
    by_cases hrec : env.allRecords = []
    · rw [main_empty sprintV env cfg store files c cur hconn hcur hrec]
      simp [State.start]
    rcases hcr : env.createErr with _ | ce
    swap
    · rw [main_create_fail sprintV env cfg store files c cur ce hconn hcur hrec hcr]
      simp [State.start]
    rcases hdel : env.deleteReply with _ | ⟨res, de, applied⟩
    · rw [main_delete_ok sprintV env cfg store files c cur hconn hcur hrec hcr hdel]
      exact hmem
    · rw [main_delete_failed sprintV env cfg store files c cur res de applied hconn hcur hrec
        hcr hdel]
      cases applied
      · simp
      · exact hmem
  · intro c cur hconn hcur hrec hcr hdel
    rw [main_delete_ok sprintV env cfg store files c cur hconn hcur hrec hcr hdel]
    refine ⟨?_, ?_, ?_⟩
    · simp only [hsel]
    · simp only [hsel]
    · intro hall harr
      simp only [hsel, harr, List.append_nil]
      exact hall.symm

/-- C1, amended, at a quiet run: the read returns the one record newer than the cutoff, no
record arrives, and the run removes that record and keeps the older one. -/
theorem main_purges_filter_matches_witness :
    (main sprintConst (calmEnv sampleNow [newerRecord])
        (State.start mongoConfig [olderRecord, newerRecord] (fun _ => none))).final.purged
        = [newerRecord]
    ∧ (main sprintConst (calmEnv sampleNow [newerRecord])
        (State.start mongoConfig [olderRecord, newerRecord] (fun _ => none))).final.store
        = [olderRecord] :=
  have h := (main_purges_filter_matches sprintConst (calmEnv sampleNow [newerRecord])
    mongoConfig [olderRecord, newerRecord] (fun _ => none)).2 { id := 1 } { id := 1 }
    rfl rfl (by decide) rfl rfl
  ⟨h.2.2 (by decide) rfl, h.2.1⟩

/-- C4, the code against the claim. The filter of every `Find` and `DeleteMany` of a run
selects the records dated later than `cutoff = now - 24h` and no record dated earlier: the
records older than the cutoff are the ones the run leaves alone. -/
theorem main_skips_older (sprintV : Float64 → String) (env : Env) (cfg : MongoConfig)
    (store : List PriceAlertHistoryModel) (files : String → Option (List UInt8)) :
    ∀ e ∈ (main sprintV env (State.start cfg store files)).final.trace,
      ∀ db coll f, e = .find db coll f ∨ e = .deleteMany db coll f →
        ∀ r : PriceAlertHistoryModel,
          (r.Date < env.now - 86400000 → f.selects r = false)
          ∧ (env.now - 86400000 < r.Date → f.selects r = true) := by
  intro e he db coll f hf r
  obtain ⟨_, _, hfilter⟩ := main_queries sprintV env cfg store files e he db coll f hf
  subst hfilter
  constructor
  · intro hlt
    have : ¬ env.now - 86400000 < r.Date := not_lt.mpr (le_of_lt hlt)
    simpa [filterBson, FilterDoc.selects] using this
  · intro hgt
    simpa [filterBson, FilterDoc.selects] using hgt

/-- C4 at a store holding one record older and one record newer than the cutoff, the read
returning what the filter selects: the older record is not selected and stays, the newer one
is exported and removed. -/
theorem main_skips_older_witness :
    olderRecord.Date < sampleNow - 86400000
    ∧ (filterBson (sampleNow - 86400000)).selects olderRecord = false
    ∧ (filterBson (sampleNow - 86400000)).selects newerRecord = true
    ∧ (main sprintConst
        (calmEnv sampleNow ([olderRecord, newerRecord].filter
          (fun r => (filterBson (sampleNow - 86400000)).selects r)))
        (State.start mongoConfig [olderRecord, newerRecord] (fun _ => none))).final.store
        = [olderRecord] :=
  have h := main_skips_older sprintConst
    (calmEnv sampleNow ([olderRecord, newerRecord].filter
      (fun r => (filterBson (sampleNow - 86400000)).selects r)))
    mongoConfig [olderRecord, newerRecord] (fun _ => none)
    (.find "" "priceAlertHistory" (filterBson (sampleNow - 86400000))) (by decide)
    "" "priceAlertHistory" (filterBson (sampleNow - 86400000)) (Or.inl rfl)
  ⟨by decide, (h olderRecord).1 (by decide), (h newerRecord).2 (by decide), by decide⟩

/-- C7, the code against the claim. In a run that exports a non-empty batch and whose
`DeleteMany` fails with a nil result, the error is logged and then the run ends by a panic:
neither the deleted count nor the completion message is logged. One `DeleteMany` has been
issued and the archive holds the exported batch. -/
theorem main_delete_error_nil_result (sprintV : Float64 → String) (env : Env)
    (cfg : MongoConfig) (store : List PriceAlertHistoryModel)
    (files : String → Option (List UInt8)) (c : Client) (cur : Cursor) (de : Err)
    (applied : Bool)
    (hconn : env.connect 0 = .ok c) (hcur : env.findCursor = some cur)
    (hrec : env.allRecords ≠ []) (hcr : env.createErr = none)
    (hdel : env.deleteReply = .failed none de applied) :
    (main sprintV env (State.start cfg store files)).exit = some .panic
    ∧ Event.log (.mongoErr de) ∈ (main sprintV env (State.start cfg store files)).final.trace
    ∧ (∀ e ∈ (main sprintV env (State.start cfg store files)).final.trace,
        e ≠ .log .complete ∧ ∀ n, e ≠ .log (.deleted n))
    ∧ ((main sprintV env (State.start cfg store files)).final.trace.filter
        Event.isDelete).length = 1
    ∧ (main sprintV env (State.start cfg store files)).final.files (archiveTitle env)
        = some (bom ++ bytesOf (csvData sprintV env.allRecords)) := by
  rw [main_delete_failed sprintV env cfg store files c cur none de applied hconn hcur hrec hcr
    hdel]
  refine ⟨rfl, by simp, ?_, ?_, by simp [exportedFiles]⟩
  · simp only [exporting, exported, reading, opening, closing, List.cons_append,
      List.nil_append, List.append_assoc, List.forall_mem_cons, List.forall_mem_append,
      forall_mem_errLog]
    simp
  · have hnil : (exported sprintV env cfg cur).filter Event.isDelete = [] := by
      apply List.filter_eq_nil_iff.2
      simp only [exported, reading, opening, List.cons_append, List.nil_append,
        List.append_assoc, List.forall_mem_cons, List.forall_mem_append, forall_mem_errLog]
      simp [Event.isDelete]
    simp [exporting, hnil, Event.isDelete, closing]

/-- C7 at a run whose `DeleteMany` fails with a nil result: the run panics. -/
theorem main_delete_error_nil_result_witness :
    (main sprintConst deleteDownEnv
        (State.start mongoConfig [newerRecord] (fun _ => none))).exit = some .panic
    ∧ Event.log .complete
        ∉ (main sprintConst deleteDownEnv
            (State.start mongoConfig [newerRecord] (fun _ => none))).final.trace :=
  have h := main_delete_error_nil_result sprintConst deleteDownEnv mongoConfig [newerRecord]
    (fun _ => none) { id := 1 } { id := 1 } { msg := "connection reset" } false
    rfl rfl (by decide) rfl rfl
  ⟨h.1, fun hmem => (h.2.2.1 _ hmem).1 rfl⟩

/-- C8, the code against the claim. In a run whose `Find` hands back a nil cursor, the error
(if any) is logged and then the run ends by a panic at `cursor.All`: the record count is not
logged and the empty-batch exit is not reached. -/
theorem main_find_error_nil_cursor (sprintV : Float64 → String) (env : Env)
    (cfg : MongoConfig) (store : List PriceAlertHistoryModel)
    (files : String → Option (List UInt8)) (c : Client) (fe : Err)
    (hconn : env.connect 0 = .ok c) (hcur : env.findCursor = none)
    (hfe : env.findErr = some fe) :
    (main sprintV env (State.start cfg store files)).exit = some .panic
    ∧ Event.log (.mongoErr fe) ∈ (main sprintV env (State.start cfg store files)).final.trace
    ∧ (∀ e ∈ (main sprintV env (State.start cfg store files)).final.trace,
        e ≠ .log .ended ∧ (∀ n, e ≠ .log (.total n)) ∧ ∀ k, e ≠ .cursorAll k) := by
  rw [main_nil_cursor sprintV env cfg store files c hconn hcur]
  refine ⟨rfl, by simp [reading, errLog, hfe], ?_⟩
  simp only [reading, opening, List.cons_append, List.nil_append, List.append_assoc,
    List.forall_mem_cons, List.forall_mem_append, forall_mem_errLog]
  simp

/-- C8 at a run whose `Find` fails: the run panics. -/
theorem main_find_error_nil_cursor_witness :
    (main sprintConst findDownEnv (State.start mongoConfig [] (fun _ => none))).exit
        = some .panic
    ∧ Event.log .ended
        ∉ (main sprintConst findDownEnv (State.start mongoConfig [] (fun _ => none))).final.trace :=
  have h := main_find_error_nil_cursor sprintConst findDownEnv mongoConfig []
    (fun _ => none) { id := 1 } { msg := "server selection timeout" } rfl rfl rfl
  ⟨h.1, fun hmem => (h.2.2 _ hmem).1 rfl⟩

/-! ## The error paths that do go on -/

/-- A `DeleteMany` that fails and still hands back a result does not stop the run: the error,
the deleted count and the completion message are logged and `main` returns normally. -/
theorem main_delete_error_with_result (sprintV : Float64 → String) (env : Env)
    (cfg : MongoConfig) (store : List PriceAlertHistoryModel)
    (files : String → Option (List UInt8)) (c : Client) (cur : Cursor) (res : DeleteResult)
    (de : Err) (applied : Bool)
    (hconn : env.connect 0 = .ok c) (hcur : env.findCursor = some cur)
    (hrec : env.allRecords ≠ []) (hcr : env.createErr = none)
    (hdel : env.deleteReply = .failed (some res) de applied) :
    (main sprintV env (State.start cfg store files)).exit = none
    ∧ Event.log (.mongoErr de) ∈ (main sprintV env (State.start cfg store files)).final.trace
    ∧ Event.log (.deleted res.DeletedCount)
        ∈ (main sprintV env (State.start cfg store files)).final.trace
    ∧ Event.log .complete ∈ (main sprintV env (State.start cfg store files)).final.trace := by
  rw [main_delete_failed sprintV env cfg store files c cur (some res) de applied hconn hcur
    hrec hcr hdel]
  simp [closing, closingExit]

/-- A `cursor.All` that fails on a cursor that is there does not stop the run: the error is
logged, the records at hand are counted, and with none at hand `main` returns normally
through the empty-batch exit. -/
theorem main_all_error_continues (sprintV : Float64 → String) (env : Env)
    (cfg : MongoConfig) (store : List PriceAlertHistoryModel)
    (files : String → Option (List UInt8)) (c : Client) (cur : Cursor) (ae : Err)
    (hconn : env.connect 0 = .ok c) (hcur : env.findCursor = some cur)
    (hae : env.allErr = some ae) :
    Event.log (.mongoErr ae) ∈ (main sprintV env (State.start cfg store files)).final.trace
    ∧ Event.log (.total env.allRecords.length)
        ∈ (main sprintV env (State.start cfg store files)).final.trace
    ∧ (env.allRecords = [] →
        (main sprintV env (State.start cfg store files)).exit = none
        ∧ Event.log .ended ∈ (main sprintV env (State.start cfg store files)).final.trace
        ∧ (main sprintV env (State.start cfg store files)).final.store = store) := by
  by_cases hrec : env.allRecords = []
  · rw [main_empty sprintV env cfg store files c cur hconn hcur hrec]
    simp [hrec, hae, errLog, State.start]
  rcases hcr : env.createErr with _ | ce
  swap
  · rw [main_create_fail sprintV env cfg store files c cur ce hconn hcur hrec hcr]
    simp [hrec, hae, errLog]
  rcases hdel : env.deleteReply with _ | ⟨res, de, applied⟩
  · rw [main_delete_ok sprintV env cfg store files c cur hconn hcur hrec hcr hdel]
    simp [hrec, hae, errLog, exporting, exported]
  · rw [main_delete_failed sprintV env cfg store files c cur res de applied hconn hcur hrec hcr
      hdel]
    simp [hrec, hae, errLog, exporting, exported]

end PriceAlert
